import Mathlib

/-!
# Verification of the ritsu-v3 game-session engine

Shallow embedding of the game-session engine of RitsuProject/ritsu-v3
(`src/handlers/GameHandler.ts`, `src/utils/RitsuUtils.ts`, and the legacy
`Game` class), together with proofs and refutations of the specification's
claims about scoring, winner determination, round progression, cleanup and
theme selection.

Persisted MongoDB documents are modelled as plain Lean structures; the
per-guild storage collections are association lists.  Fallible operations
(thrown errors) are modelled with `Except`/`Option`.  `Math.random()` is
modelled by a rational parameter in `[0, 1)`.
-/

namespace Ritsu

/-- A `RoomLeaderboard` document: Mongo `_id` is the user id (the code calls
`RoomLeaderboard.findById(userId)`), plus a guild id and an integer score. -/
structure LBEntry where
  userId : Nat
  guildId : Nat
  score : Int
  deriving DecidableEq, Repr

/-- A `Room` document (per-guild session): current round number and the set
of users who answered correctly in the current round (`room.answerers`). -/
structure Room where
  currentRound : Nat
  answerers : List Nat
  deriving DecidableEq, Repr

/-- The `GameOptions` snapshot: configured round count and round duration. -/
structure GameOptions where
  rounds : Nat
  time : Nat
  deriving DecidableEq, Repr

/-!
## ScoreLedger: `bumpScore`

Embeds `GameHandler.bumpScore` (GameHandler.ts lines 303–309):

```
const leaderboard = await RoomLeaderboard.findById(userId)
if (leaderboard) {
  leaderboard.score = leaderboard.score + 1
  await leaderboard.save()
}
```

`findById` looks the document up by its unique `_id` (the user id); when a
document is found its score is incremented and saved; when none is found
the function returns without touching storage.  There is no creation
branch.  The storage collection is a list of documents with distinct
`_id`s; updating the found document is updating the first (unique) match.
-/

/-- `bumpScore`: increment the score of the leaderboard document whose
`_id` equals `uid`, if one exists; otherwise do nothing. -/
def bumpScore (entries : List LBEntry) (uid : Nat) : List LBEntry :=
  match entries with
  | [] => []
  | e :: rest =>
      if e.userId = uid then { e with score := e.score + 1 } :: rest
      else e :: bumpScore rest uid

/-- The score held for user `uid`, if a document with that `_id` exists. -/
def lookupScore (entries : List LBEntry) (uid : Nat) : Option Int :=
  (entries.find? (fun e => e.userId = uid)).map (fun e => e.score)

/-!
## Winner determination: `getMatchWinner`

Embeds `GameHandler.getMatchWinner` (GameHandler.ts lines 243–276).  The
code fetches all leaderboard documents of the guild; `Mongoose.find`
returns an array, so the `if (!leaderboards) return false` guard never
fires — the empty case instead flows through `Math.max()` = `-Infinity`:
in single-player mode `roundedHalfRounds > -Infinity - 1` holds and
`false` is returned, and in multiplayer mode `findOne({score: -Infinity})`
matches nothing.  Both give "no winner", which the `[]` branch below
returns directly.
-/

/-- `Math.round(rounds / 2)` for a natural `rounds`: JavaScript rounds
halves up, so this is `(rounds + 1) / 2` in integer arithmetic. -/
def roundedHalfRounds (rounds : Nat) : Nat :=
  (rounds + 1) / 2

/-- `Math.max(...scores)` for a non-empty scores list `s :: rest`. -/
def highestScoreFrom (s : Int) (rest : List Int) : Int :=
  rest.foldl max s

/-- `getMatchWinner`: entry with the maximal score, `none` when the guild
has no leaderboard entries or the single-player threshold is not met. -/
def getMatchWinner (entries : List LBEntry) (isSinglePlayer : Bool)
    (rounds : Nat) : Option LBEntry :=
  match entries with
  | [] => none
  | e :: rest =>
      let highestScore := highestScoreFrom e.score (rest.map (fun x => x.score))
      let wonRounds := highestScore - 1
      if isSinglePlayer && decide ((roundedHalfRounds rounds : Int) > wonRounds) then
        none
      else
        (e :: rest).find? (fun x => x.score = highestScore)

/-!
## Player-mode classification: `isSinglePlayer`

Embeds `GameHandler.isSinglePlayer` (GameHandler.ts lines 293–301): a
channel whose `type` is not `2` (voice) makes the method throw
`'Invalid Channel Type'`; otherwise the channel's voice members except the
bot itself are counted, and the method returns `true` exactly when one
member remains.
-/

/-- An Eris guild channel, restricted to the fields the method reads:
its numeric `type` and the ids of its `voiceMembers`. -/
structure GuildChannel where
  type : Nat
  voiceMembers : List Nat
  deriving DecidableEq, Repr

/-- `isSinglePlayer`: throws on a non-voice channel, else `true` iff
exactly one non-bot member (`voiceChannelMembers`, the filter below)
occupies the channel. -/
def isSinglePlayer (botId : Nat) (voiceChannel : GuildChannel) :
    Except String Bool :=
  if voiceChannel.type ≠ 2 then .error "Invalid Channel Type"
  else if (voiceChannel.voiceMembers.filter (fun m => m ≠ botId)).length = 1 then .ok true
  else .ok false

/-!
## Session storage and `clearData`

The per-guild persisted state the engine mutates: the `Rooms` collection,
the `rolling` flag of each `Guild` document, the `RoomLeaderboard`
collection, and the in-process `themesCache` of the session.  Collections
are keyed by guild id.

`GameHandler.clearData` (GameHandler.ts lines 278–291) fetches the guild's
leaderboard documents, flushes the theme cache, sets `rolling = false`,
deletes every fetched leaderboard document, saves the guild and deletes
the room document.  Mongoose's `deleteOne` on an already-deleted document
matches nothing and resolves without error, so the operation is total.
-/

/-- The persisted storage shared by all guilds, plus the running
session's theme cache. -/
structure Store where
  rooms : List (Nat × Room)
  rolling : List (Nat × Bool)
  leaderboard : List LBEntry
  themesCache : List String
  deriving DecidableEq, Repr

/-- Set the `rolling` flag of guild `gid` (`guild.save()` after mutating
the in-memory document). -/
def saveRolling (flags : List (Nat × Bool)) (gid : Nat) (v : Bool) :
    List (Nat × Bool) :=
  flags.map (fun p => if p.1 = gid then (p.1, v) else p)

/-- `clearData`: delete all of the guild's leaderboard documents, flush
the theme cache, persist `rolling = false` and delete the room. -/
def clearData (gid : Nat) (st : Store) : Store :=
  { rooms := st.rooms.filter (fun p => p.1 ≠ gid)
    rolling := saveRolling st.rolling gid false
    leaderboard := st.leaderboard.filter (fun e => e.guildId ≠ gid)
    themesCache := [] }

/-- The room document of guild `gid`, if one exists
(`Rooms.findById(guildID)`). -/
def roomOf (st : Store) (gid : Nat) : Option Room :=
  (st.rooms.find? (fun p => p.1 = gid)).map (fun p => p.2)

/-- The `rolling` flag of guild `gid`, if its guild document exists. -/
def flagOf (flags : List (Nat × Bool)) (gid : Nat) : Option Bool :=
  (flags.find? (fun p => p.1 = gid)).map (fun p => p.2)

/-!
## Round resolution: the answer collector's `end` handler

Embeds the `answerCollector.on('end', …)` handler of
`GameHandler.startNewRound` (GameHandler.ts lines 164–211) together with
`GameHandler.handleFinish` (lines 216–241).

* `stopReason === 'forceFinished'` (the `stop` command force-ended the
  collector): call `handleFinish` with `force = true` — which skips the
  whole winner block (`if (!force) { … }`) and only leaves the voice
  channel — then `clearData`, and return: no reveal messages are sent.
* any other reason (natural timeout): send the three reveal messages
  (`'The answer is...'`, the answer embed, the winners line), bump the
  score of every answerer, then either finish (round count exhausted:
  `handleFinish` with `force = false`, which computes and announces the
  match winner, then `clearData`) or start the next round.
-/

/-- `handleFinish`: the match winner it computes and announces, `none`
when `force` is set (the `if (!force)` block is skipped) or when
`getMatchWinner` finds nobody.  The voice-channel disconnect it always
performs has no persisted effect and is not modelled. -/
def handleFinish (entries : List LBEntry) (isSinglePlayer : Bool)
    (rounds : Nat) (force : Bool) : Option LBEntry :=
  if !force then getMatchWinner entries isSinglePlayer rounds
  else none

/-- Outcome of one firing of the answer collector's `end` handler. -/
structure EndOutcome where
  /-- Reveal messages sent (`'The answer is...'`, answer embed, winners). -/
  revealMessages : Nat
  /-- Winner computed and announced by `handleFinish`, if any. -/
  announcedWinner : Option LBEntry
  /-- Persisted storage after the handler ran. -/
  store : Store
  /-- Whether the handler recursed into `startNewRound`. -/
  startsNextRound : Bool
  deriving DecidableEq, Repr

/-- The answer collector's `end` handler for guild `gid`, whose room
document is `room` (`Rooms` holds it), run on storage `st`. -/
def onAnswerCollectorEnd (gid : Nat) (stopReason : String) (room : Room)
    (isSinglePlayer : Bool) (gameOptions : GameOptions) (st : Store) :
    EndOutcome :=
  if stopReason = "forceFinished" then
    { revealMessages := 0
      announcedWinner :=
        handleFinish (st.leaderboard.filter (fun e => e.guildId = gid))
          isSinglePlayer gameOptions.rounds true
      store := clearData gid st
      startsNextRound := false }
  else
    let bumped := room.answerers.foldl (fun es id => bumpScore es id) st.leaderboard
    let st1 := { st with leaderboard := bumped }
    if room.currentRound ≥ gameOptions.rounds then
      { revealMessages := 3
        announcedWinner :=
          handleFinish (st1.leaderboard.filter (fun e => e.guildId = gid))
            isSinglePlayer gameOptions.rounds false
        store := clearData gid st1
        startsNextRound := false }
    else
      { revealMessages := 3
        announcedWinner := none
        store := st1
        startsNextRound := true }

/-!
## Round start: persisted-state effects of `startNewRound`

Embeds the persisted-state effects of `GameHandler.startNewRound`
(GameHandler.ts lines 57–214) up to the point where the collectors are
installed, in program order:

1. no voice channel → send an error message and return (lines 60–71);
2. `isSinglePlayer` → throws `'Invalid Channel Type'` on a non-voice
   channel (line 295);
3. `roomHandler.handleRoom()` (line 78) — creates or advances the room
   document *before* the theme and stream are fetched;
4. `themes.getTheme()` (line 99) — fallible external lookup;
5. `getStreamFromURL(theme.link)` (line 101) — on failure the handler
   throws `'unableToLoadStream'`;
6. `guild.rolling = true; await guild.save()` (lines 109–110).
-/

/-- Errors `startNewRound` can throw before a round becomes active. -/
inductive GameError where
  | invalidChannelType
  | themeUnavailable
  | streamUnavailable
  deriving DecidableEq, Repr

/-- Modelled from the spec: `RoomHandler.handleRoom` (the `RoomHandler`
source is not in the repository snapshot) — "Created on first round start
for a guild" with `currentRound = 1`, otherwise "increment `currentRound`,
reset the per-round answerer set", saving the document. -/
def handleRoom (gid : Nat) (st : Store) : Store :=
  match roomOf st gid with
  | none =>
      { st with rooms := (gid, Room.mk 1 []) :: st.rooms }
  | some r =>
      { st with rooms :=
          st.rooms.map (fun p =>
            if p.1 = gid then (p.1, Room.mk (r.currentRound + 1) []) else p) }

/-- Persisted-state effects of `startNewRound`, taking the outcomes of the
external collaborators as parameters: whether the requester has a voice
channel, the channel itself, whether the theme lookup succeeds, and
whether the stream fetch succeeds.  Returns the storage as left behind
together with the error thrown, if any. -/
def startNewRoundPersist (gid : Nat) (botId : Nat)
    (voiceChannelID : Option Nat) (voiceChannel : GuildChannel)
    (themeOk streamOk : Bool) (st : Store) : Store × Option GameError :=
  match voiceChannelID with
  | none => (st, none)
  | some _ =>
      match isSinglePlayer botId voiceChannel with
      | .error _ => (st, some .invalidChannelType)
      | .ok _ =>
          let st1 := handleRoom gid st
          if !themeOk then (st1, some .themeUnavailable)
          else if !streamOk then (st1, some .streamUnavailable)
          else ({ st1 with rolling := saveRolling st1.rolling gid true }, none)

/-!
## Theme selection: `chooseTheme`

Embeds `Game.chooseTheme` of the legacy `Game` class
(src/unnamed/part_001 lines 169–178):

```
async chooseTheme(): Promise<MioSong> {
  const themes = new Themes()
  const theme = await themes.getThemeByMode(this.gameOptions)
  if (!theme || this.themesCache.get(theme.link) !== undefined) {
    return await this.chooseTheme()
  } else {
    return theme
  }
}
```

Each recursive call performs one fresh external lookup; the external
source is modelled as the sequence of its responses.  The recursion
carries no counter and has no failure branch, so termination is not
structural: the embedding adds an explicit `fuel` bound, `none` meaning
"still recursing after `fuel` lookups" — the TypeScript has returned
nothing (and thrown nothing) at that point.
-/

/-- A theme as `chooseTheme` inspects it: its de-duplication key. -/
structure MioSong where
  link : String
  deriving DecidableEq, Repr

/-- `chooseTheme`, unrolled `fuel` times: `source i` is the result of the
`(i+1)`-th call to `themes.getThemeByMode` (`none` for a falsy theme),
`cached` is membership in `themesCache`.  `none` means the recursion has
not produced a value within `fuel` lookups. -/
def chooseThemeFuel (source : Nat → Option MioSong) (cached : String → Bool) :
    Nat → Nat → Option MioSong
  | 0, _ => none
  | fuel + 1, i =>
      match source i with
      | none => chooseThemeFuel source cached fuel (i + 1)
      | some theme =>
          if cached theme.link then chooseThemeFuel source cached fuel (i + 1)
          else some theme

/-!
## `RitsuUtils.randomValueInArray`

Embeds `randomValueInArray` (RitsuUtils.ts lines 10–12):
`array[Math.floor(Math.random() * array.length)]`.  `Math.random()` is a
parameter `r ∈ [0, 1)`; JavaScript indexing past the end yields
`undefined`, modelled by `Option`.
-/

/-- `randomValueInArray`: the element at index `⌊r · length⌋`. -/
def randomValueInArray {α : Type} (array : List α) (r : ℚ) : Option α :=
  array.get? (Int.toNat ⌊r * array.length⌋)

/-!
## Helper lemmas
-/

theorem highestScoreFrom_cons (s a : Int) (l : List Int) :
    highestScoreFrom s (a :: l) = highestScoreFrom (max s a) l := rfl

theorem le_highestScoreFrom (s : Int) (l : List Int) : s ≤ highestScoreFrom s l := by
  induction l generalizing s with
  | nil => exact le_refl s
  | cons a l ih => exact le_trans (le_max_left s a) (ih (max s a))

theorem le_highestScoreFrom_of_mem {x : Int} {l : List Int} (s : Int)
    (hx : x ∈ l) : x ≤ highestScoreFrom s l := by
  induction l generalizing s with
  | nil => cases hx
  | cons a l ih =>
    rcases List.mem_cons.mp hx with h | h
    · subst h
      exact le_trans (le_max_right s x) (le_highestScoreFrom (max s x) l)
    · exact ih _ h

theorem highestScoreFrom_eq_or_mem (s : Int) (l : List Int) :
    highestScoreFrom s l = s ∨ highestScoreFrom s l ∈ l := by
  induction l generalizing s with
  | nil => exact Or.inl rfl
  | cons a l ih =>
    rw [highestScoreFrom_cons]
    rcases ih (max s a) with h | h
    · rcases max_choice s a with hm | hm
      · exact Or.inl (h.trans hm)
      · exact Or.inr (by rw [h, hm]; exact List.mem_cons_self a l)
    · exact Or.inr (List.mem_cons_of_mem a h)

/-- The maximal score of a non-empty entry list is attained by one of
its entries. -/
theorem highestScore_attained (e : LBEntry) (rest : List LBEntry) :
    ∃ x ∈ e :: rest,
      x.score = highestScoreFrom e.score (rest.map (fun x => x.score)) := by
  rcases highestScoreFrom_eq_or_mem e.score (rest.map (fun x => x.score)) with h | h
  · exact ⟨e, List.mem_cons_self _ _, h.symm⟩
  · rcases List.mem_map.mp h with ⟨x, hx, hxs⟩
    exact ⟨x, List.mem_cons_of_mem _ hx, hxs⟩

theorem lookupScore_cons_pos {e : LBEntry} {rest : List LBEntry} {uid : Nat}
    (he : e.userId = uid) : lookupScore (e :: rest) uid = some e.score := by
  simp [lookupScore, List.find?_cons, he]

theorem lookupScore_cons_neg {e : LBEntry} {rest : List LBEntry} {uid : Nat}
    (he : ¬e.userId = uid) : lookupScore (e :: rest) uid = lookupScore rest uid := by
  simp [lookupScore, List.find?_cons, he]

theorem bumpScore_of_absent {entries : List LBEntry} {uid : Nat}
    (h : lookupScore entries uid = none) : bumpScore entries uid = entries := by
  induction entries with
  | nil => rfl
  | cons e rest ih =>
    by_cases he : e.userId = uid
    · rw [lookupScore_cons_pos he] at h
      cases h
    · rw [lookupScore_cons_neg he] at h
      simp only [bumpScore, he, if_false]
      rw [ih h]

theorem lookupScore_bumpScore {entries : List LBEntry} {uid : Nat} {s : Int}
    (h : lookupScore entries uid = some s) :
    lookupScore (bumpScore entries uid) uid = some (s + 1) := by
  induction entries with
  | nil => simp [lookupScore] at h
  | cons e rest ih =>
    by_cases he : e.userId = uid
    · rw [lookupScore_cons_pos he] at h
      have hs : e.score = s := Option.some_inj.mp h
      simp only [bumpScore, he, if_true]
      rw [lookupScore_cons_pos rfl, hs]
    · rw [lookupScore_cons_neg he] at h
      simp only [bumpScore, he, if_false]
      rw [@lookupScore_cons_neg e (bumpScore rest uid) uid he]
      exact ih h

theorem find?_map_set {β : Type} (l : List (Nat × β)) (gid : Nat) (b : β) :
    (l.map (fun p => if p.1 = gid then (p.1, b) else p)).find? (fun p => p.1 = gid)
      = (l.find? (fun p => p.1 = gid)).map (fun _ => (gid, b)) := by
  induction l with
  | nil => rfl
  | cons p rest ih =>
    by_cases hp : p.1 = gid
    · simp [List.find?_cons, hp]
    · simp [List.find?_cons, hp, ih]

theorem flagOf_saveRolling (flags : List (Nat × Bool)) (gid : Nat) (v : Bool) :
    flagOf (saveRolling flags gid v) gid = (flagOf flags gid).map (fun _ => v) := by
  unfold flagOf saveRolling
  rw [find?_map_set]
  cases flags.find? (fun p => p.1 = gid) <;> rfl

theorem saveRolling_idem (flags : List (Nat × Bool)) (gid : Nat) (v : Bool) :
    saveRolling (saveRolling flags gid v) gid v = saveRolling flags gid v := by
  simp only [saveRolling, List.map_map]
  apply List.map_congr_left
  intro p _
  by_cases hp : p.1 = gid <;> simp [Function.comp, hp]

theorem roomOf_clearData (gid : Nat) (st : Store) :
    roomOf (clearData gid st) gid = none := by
  simp only [roomOf, clearData, Option.map_eq_none', List.find?_eq_none]
  intro p hp
  simp only [List.mem_filter, decide_not, Bool.not_eq_eq_eq_not, Bool.not_true,
    decide_eq_false_iff_not] at hp
  simpa using hp.2

theorem leaderboard_clearData (gid : Nat) (st : Store) :
    (clearData gid st).leaderboard.filter (fun e => e.guildId = gid) = [] := by
  simp only [clearData, List.filter_filter, List.filter_eq_nil_iff]
  intro e _
  by_cases he : e.guildId = gid <;> simp [he]

theorem flagOf_clearData (gid : Nat) (st : Store) :
    flagOf (clearData gid st).rolling gid
      = (flagOf st.rolling gid).map (fun _ => false) := by
  simpa [clearData] using flagOf_saveRolling st.rolling gid false

theorem roomOf_set_rooms (st : Store) (gid : Nat) (nr : Room) :
    roomOf ({ st with rooms := st.rooms.map (fun p => if p.1 = gid then (p.1, nr) else p) }) gid
      = (roomOf st gid).map (fun _ => nr) := by
  unfold roomOf
  rw [find?_map_set]
  cases st.rooms.find? (fun p => p.1 = gid) <;> rfl

theorem roomOf_handleRoom {st : Store} {gid : Nat} {r : Room}
    (h : roomOf st gid = some r) :
    roomOf (handleRoom gid st) gid = some (Room.mk (r.currentRound + 1) []) := by
  simp only [handleRoom, h]
  rw [roomOf_set_rooms, h]
  rfl

theorem rolling_handleRoom (gid : Nat) (st : Store) :
    (handleRoom gid st).rolling = st.rolling := by
  unfold handleRoom
  cases roomOf st gid <;> rfl

/-!
## Claims
-/

/-- C1 (counterexample): `bumpScore` is not an upsert — invoked on a store
with no entry for the user, it creates nothing: no entry with score 1 (or
any score) appears for user 0. -/
theorem bumpScore_creates_no_entry_cex :
    ¬∃ e ∈ bumpScore ([] : List LBEntry) 0, e.userId = 0 ∧ e.score = 1 := by
  decide

/-- C1 (amended): `bumpScore` only ever increments.  When no entry exists
for the user, any number of calls leaves the store entirely unchanged (in
particular no entry is ever created, with score 1, 0 or otherwise); when
an entry with score `s` exists, `k` calls yield score `s + k`. -/
theorem bumpScore_increment_only (entries : List LBEntry) (uid : Nat) (k : Nat) :
    (lookupScore entries uid = none →
      (fun es => bumpScore es uid)^[k] entries = entries) ∧
    (∀ s : Int, lookupScore entries uid = some s →
      lookupScore ((fun es => bumpScore es uid)^[k] entries) uid = some (s + k)) := by
  induction k generalizing entries with
  | zero => exact ⟨fun _ => rfl, fun s h => by simpa using h⟩
  | succ k ih =>
    constructor
    · intro h
      rw [Function.iterate_succ_apply, bumpScore_of_absent h]
      exact (ih entries).1 h
    · intro s h
      rw [Function.iterate_succ_apply]
      rw [(ih (bumpScore entries uid)).2 (s + 1) (lookupScore_bumpScore h)]
      congr 1
      push_cast
      ring

/-- C1 (witness): a user holding score 3 bumped twice holds score 5. -/
theorem bumpScore_increment_only_witness :
    lookupScore ((fun es => bumpScore es 5)^[2] [LBEntry.mk 5 1 3]) 5 = some 5 := by
  have h := (bumpScore_increment_only [LBEntry.mk 5 1 3] 5 2).2 3 (by decide)
  simpa using h

/-- C2 (counterexample): with two leaderboard entries (scores 4 and 7) the
current leaderboard state determines a match winner, yet when the answer
collector ends with the forced-stop reason no winner is computed or
announced: `handleFinish` is invoked with `force = true`, which skips
`getMatchWinner` entirely. -/
theorem forcedStop_skips_winner_cex :
    getMatchWinner [LBEntry.mk 1 1 4, LBEntry.mk 2 1 7] false 10
      = some (LBEntry.mk 2 1 7) ∧
    (onAnswerCollectorEnd 1 "forceFinished" (Room.mk 1 []) false
        (GameOptions.mk 10 30000)
        (Store.mk [(1, Room.mk 1 [])] [(1, true)]
          [LBEntry.mk 1 1 4, LBEntry.mk 2 1 7] [])).announcedWinner = none := by
  decide

/-- C2 (amended): whenever the answer collector ends with the forced-stop
end reason, no reveal/answer message is produced, winner computation is
skipped entirely (`handleFinish` runs with `force = true`, bypassing
`getMatchWinner`; no winner is announced), and all session data is
cleared: the room document is deleted, the guild's leaderboard entries
are deleted, `rolling` is persisted as `false` and the theme cache is
flushed; no further round starts. -/
theorem forcedStop_resolution (gid : Nat) (room : Room) (single : Bool)
    (opts : GameOptions) (st : Store) :
    (onAnswerCollectorEnd gid "forceFinished" room single opts st).revealMessages = 0 ∧
    (onAnswerCollectorEnd gid "forceFinished" room single opts st).announcedWinner = none ∧
    (onAnswerCollectorEnd gid "forceFinished" room single opts st).store = clearData gid st ∧
    roomOf (onAnswerCollectorEnd gid "forceFinished" room single opts st).store gid = none ∧
    (onAnswerCollectorEnd gid "forceFinished" room single opts st).store.leaderboard.filter
      (fun e => e.guildId = gid) = [] ∧
    flagOf (onAnswerCollectorEnd gid "forceFinished" room single opts st).store.rolling gid
      = (flagOf st.rolling gid).map (fun _ => false) ∧
    (onAnswerCollectorEnd gid "forceFinished" room single opts st).startsNextRound = false := by
  have hout : onAnswerCollectorEnd gid "forceFinished" room single opts st =
      { revealMessages := 0, announcedWinner := none,
        store := clearData gid st, startsNextRound := false } := by
    simp [onAnswerCollectorEnd, handleFinish]
  rw [hout]
  exact ⟨rfl, rfl, rfl, roomOf_clearData gid st, leaderboard_clearData gid st,
    flagOf_clearData gid st, rfl⟩

/-- C3: in single-player mode, a non-empty leaderboard produces a winner
iff `maxScore − 1 ≥ round(configuredRounds / 2)`; with 10 configured
rounds a sole answerer scoring 6 wins and one scoring 5 does not. -/
theorem singlePlayer_winner_rule :
    (∀ (e : LBEntry) (rest : List LBEntry) (rounds : Nat),
      ((getMatchWinner (e :: rest) true rounds).isSome = true ↔
        (roundedHalfRounds rounds : Int) ≤
          highestScoreFrom e.score (rest.map (fun x => x.score)) - 1)) ∧
    (getMatchWinner [LBEntry.mk 1 1 6] true 10).isSome = true ∧
    getMatchWinner [LBEntry.mk 1 1 5] true 10 = none := by
  refine ⟨?_, by decide, by decide⟩
  intro e rest rounds
  set H := highestScoreFrom e.score (rest.map (fun x => x.score)) with hH
  by_cases hcond : (roundedHalfRounds rounds : Int) > H - 1
  · have h1 : getMatchWinner (e :: rest) true rounds = none := by
      show (if true && decide ((roundedHalfRounds rounds : Int) > H - 1) then none
        else (e :: rest).find? (fun x => x.score = H)) = none
      simp [hcond]
    rw [h1]
    simp only [Option.isSome_none, Bool.false_eq_true, false_iff, not_le]
    exact hcond
  · have hle : (roundedHalfRounds rounds : Int) ≤ H - 1 := not_lt.mp hcond
    have h1 : getMatchWinner (e :: rest) true rounds
        = (e :: rest).find? (fun x => x.score = H) := by
      show (if true && decide ((roundedHalfRounds rounds : Int) > H - 1) then none
        else (e :: rest).find? (fun x => x.score = H)) = _
      simp [hcond]
    have hsome : ((e :: rest).find? (fun x => x.score = H)).isSome = true := by
      rw [List.find?_isSome]
      obtain ⟨x, hx, hxs⟩ := highestScore_attained e rest
      exact ⟨x, hx, by simp [hxs, ← hH]⟩
    rw [h1]
    exact iff_of_true hsome hle

/-- C4 (counterexample): a round start whose stream fetch fails does not
leave the persisted session state unchanged — the room-handling step,
which runs before the stream is fetched, has already advanced the room
document (round 1 with one answerer becomes round 2 with none), and this
mutation is not rolled back when the stream error is thrown. -/
theorem streamFailure_state_changed_cex :
    (startNewRoundPersist 1 99 (some 42) (GuildChannel.mk 2 [7, 99]) true false
        (Store.mk [(1, Room.mk 1 [7])] [(1, false)] [] [])).2
      = some GameError.streamUnavailable ∧
    (startNewRoundPersist 1 99 (some 42) (GuildChannel.mk 2 [7, 99]) true false
        (Store.mk [(1, Room.mk 1 [7])] [(1, false)] [] [])).1
      ≠ Store.mk [(1, Room.mk 1 [7])] [(1, false)] [] [] := by
  decide

/-- C4 (amended): when the stream fetch fails, `startNewRound` throws (so
the caller is notified), and the session's `rolling` flags are left
exactly as they were — in particular `rolling` is not set; the persisted
state left behind is precisely the state after the room-handling step
that precedes the stream fetch (room created or advanced), which is not
rolled back. -/
theorem streamFailure_no_rolling (gid botId vcid : Nat) (ch : GuildChannel)
    (st : Store) (hch : ch.type = 2) :
    (startNewRoundPersist gid botId (some vcid) ch true false st).2
      = some GameError.streamUnavailable ∧
    (startNewRoundPersist gid botId (some vcid) ch true false st).1.rolling
      = st.rolling ∧
    (startNewRoundPersist gid botId (some vcid) ch true false st).1
      = handleRoom gid st := by
  have hsp : ∃ b, isSinglePlayer botId ch = .ok b := by
    unfold isSinglePlayer
    rw [if_neg (fun hne => hne hch)]
    by_cases hl : (ch.voiceMembers.filter (fun m => m ≠ botId)).length = 1
    · rw [if_pos hl]; exact ⟨true, rfl⟩
    · rw [if_neg hl]; exact ⟨false, rfl⟩
  obtain ⟨b, hb⟩ := hsp
  have hrun : startNewRoundPersist gid botId (some vcid) ch true false st
      = (handleRoom gid st, some GameError.streamUnavailable) := by
    unfold startNewRoundPersist
    rw [hb]
    rfl
  rw [hrun]
  exact ⟨rfl, rolling_handleRoom gid st, rfl⟩

/-- C4 (witness): concrete stream-failure run with an empty rooms
collection. -/
theorem streamFailure_no_rolling_witness :
    (startNewRoundPersist 2 99 (some 42) (GuildChannel.mk 2 [7, 99]) true false
        (Store.mk [] [(2, false)] [] [])).2 = some GameError.streamUnavailable ∧
    (startNewRoundPersist 2 99 (some 42) (GuildChannel.mk 2 [7, 99]) true false
        (Store.mk [] [(2, false)] [] [])).1.rolling
      = (Store.mk [] [(2, false)] [] []).rolling ∧
    (startNewRoundPersist 2 99 (some 42) (GuildChannel.mk 2 [7, 99]) true false
        (Store.mk [] [(2, false)] [] [])).1
      = handleRoom 2 (Store.mk [] [(2, false)] [] []) :=
  streamFailure_no_rolling 2 99 42 (GuildChannel.mk 2 [7, 99])
    (Store.mk [] [(2, false)] [] []) rfl

/-- C5: `chooseTheme` has no retry cap — against a degenerate external
source that always returns the same already-cached theme, the recursion
has produced neither a theme nor an error after any number of lookups,
for every unrolling depth; the claimed `ThemeUnavailable` failure path
does not exist in the code. -/
theorem chooseTheme_no_retry_cap (fuel i : Nat) :
    chooseThemeFuel (fun _ => some (MioSong.mk "repeat")) (fun _ => true)
      fuel i = none := by
  induction fuel generalizing i with
  | zero => rfl
  | succ fuel ih => simpa [chooseThemeFuel] using ih (i + 1)

/-- C6: when a round resolves by natural timeout (any end reason other
than the forced one): if `currentRound ≥ configuredRounds`, final winner
handling runs (`handleFinish` with `force = false` on the post-bump
leaderboard), the room document is deleted and no further round starts;
otherwise the handler recurses into `startNewRound` for the same room
document, whose room-handling step advances it to `currentRound + 1` with
the answerer set reset. -/
theorem round_progression (gid : Nat) (stopReason : String) (room : Room)
    (single : Bool) (opts : GameOptions) (st : Store)
    (hstop : stopReason ≠ "forceFinished") (hroom : roomOf st gid = some room) :
    (room.currentRound ≥ opts.rounds →
      (onAnswerCollectorEnd gid stopReason room single opts st).startsNextRound = false ∧
      roomOf (onAnswerCollectorEnd gid stopReason room single opts st).store gid = none ∧
      (onAnswerCollectorEnd gid stopReason room single opts st).announcedWinner
        = handleFinish
            ((room.answerers.foldl (fun es id => bumpScore es id) st.leaderboard).filter
              (fun e => e.guildId = gid)) single opts.rounds false) ∧
    (room.currentRound < opts.rounds →
      (onAnswerCollectorEnd gid stopReason room single opts st).startsNextRound = true ∧
      roomOf (handleRoom gid (onAnswerCollectorEnd gid stopReason room single opts st).store) gid
        = some (Room.mk (room.currentRound + 1) [])) := by
  constructor
  · intro hge
    refine ⟨?_, ?_, ?_⟩ <;>
      simp [onAnswerCollectorEnd, hstop, hge, roomOf_clearData]
  · intro hlt
    have hnot : ¬room.currentRound ≥ opts.rounds := not_le.mpr hlt
    constructor
    · simp [onAnswerCollectorEnd, hstop, hnot]
    · have hstore : (onAnswerCollectorEnd gid stopReason room single opts st).store
          = { st with leaderboard :=
                room.answerers.foldl (fun es id => bumpScore es id) st.leaderboard } := by
        simp [onAnswerCollectorEnd, hstop, hnot]
      rw [hstore]
      exact roomOf_handleRoom (show roomOf _ gid = some room from hroom)

/-- C6 (witness): with 3 configured rounds, a natural timeout of round 3
deletes the room and starts no round 4. -/
theorem round_progression_witness :
    (onAnswerCollectorEnd 1 "time" (Room.mk 3 []) false (GameOptions.mk 3 30000)
        (Store.mk [(1, Room.mk 3 [])] [(1, true)] [] [])).startsNextRound = false ∧
    roomOf (onAnswerCollectorEnd 1 "time" (Room.mk 3 []) false (GameOptions.mk 3 30000)
        (Store.mk [(1, Room.mk 3 [])] [(1, true)] [] [])).store 1 = none ∧
    (onAnswerCollectorEnd 1 "time" (Room.mk 3 []) false (GameOptions.mk 3 30000)
        (Store.mk [(1, Room.mk 3 [])] [(1, true)] [] [])).announcedWinner = none :=
  (round_progression 1 "time" (Room.mk 3 []) false (GameOptions.mk 3 30000)
    (Store.mk [(1, Room.mk 3 [])] [(1, true)] [] [])
    (by decide) (by decide)).1 (by decide)

/-- C7: the player-mode classification throws the invalid-channel-type
fault exactly on non-voice channels (`type ≠ 2`), and on a voice channel
classifies the session as single-player iff exactly one non-bot member
occupies it. -/
theorem isSinglePlayer_classification (botId : Nat) (ch : GuildChannel) :
    (ch.type ≠ 2 → isSinglePlayer botId ch = .error "Invalid Channel Type") ∧
    (ch.type = 2 →
      ((isSinglePlayer botId ch = .ok true ↔
        (ch.voiceMembers.filter (fun m => m ≠ botId)).length = 1) ∧
       (isSinglePlayer botId ch = .ok false ↔
        ¬(ch.voiceMembers.filter (fun m => m ≠ botId)).length = 1))) := by
  constructor
  · intro h
    simp [isSinglePlayer, h]
  · intro h
    by_cases hl : (ch.voiceMembers.filter (fun m => m ≠ botId)).length = 1 <;>
      simp [isSinglePlayer, h, hl]

/-- C8: a guild with no leaderboard entries yields "no winner" in both
modes rather than an error; a non-empty leaderboard in multiplayer mode
yields an entry of the leaderboard holding the maximum score. -/
theorem matchWinner_total_and_max (single : Bool) (rounds : Nat)
    (e : LBEntry) (rest : List LBEntry) :
    getMatchWinner [] single rounds = none ∧
    ∃ w, getMatchWinner (e :: rest) false rounds = some w ∧ w ∈ e :: rest ∧
      ∀ x ∈ e :: rest, x.score ≤ w.score := by
  refine ⟨rfl, ?_⟩
  set H := highestScoreFrom e.score (rest.map (fun x => x.score)) with hH
  have h1 : getMatchWinner (e :: rest) false rounds
      = (e :: rest).find? (fun x => x.score = H) := by
    show (if false && decide ((roundedHalfRounds rounds : Int) > H - 1) then none
      else (e :: rest).find? (fun x => x.score = H)) = _
    simp
  have hsome : ((e :: rest).find? (fun x => x.score = H)).isSome = true := by
    rw [List.find?_isSome]
    obtain ⟨x, hx, hxs⟩ := highestScore_attained e rest
    exact ⟨x, hx, by simp [hxs, ← hH]⟩
  obtain ⟨w, hw⟩ := Option.isSome_iff_exists.mp hsome
  have hwscore : w.score = H := by simpa using List.find?_some hw
  refine ⟨w, by rw [h1, hw], List.mem_of_find?_eq_some hw, ?_⟩
  intro x hx
  rw [hwscore, hH]
  rcases List.mem_cons.mp hx with h | h
  · rw [h]
    exact le_highestScoreFrom e.score _
  · exact le_highestScoreFrom_of_mem e.score
      (List.mem_map_of_mem (fun x => x.score) h)

/-- C8 (witness): entries with scores 4 and 7 yield a winner holding the
maximum score 7. -/
theorem matchWinner_total_and_max_witness :
    getMatchWinner [] false 10 = none ∧
    ∃ w, getMatchWinner [LBEntry.mk 1 1 4, LBEntry.mk 2 1 7] false 10 = some w ∧
      w ∈ [LBEntry.mk 1 1 4, LBEntry.mk 2 1 7] ∧
      ∀ x ∈ [LBEntry.mk 1 1 4, LBEntry.mk 2 1 7], x.score ≤ w.score :=
  matchWinner_total_and_max false 10 (LBEntry.mk 1 1 4) [LBEntry.mk 2 1 7]

/-- C9: `clearData` deletes the guild's room document and every one of
its leaderboard entries and persists `rolling = false`; it never raises
(the model is a total function, matching Mongoose `deleteOne` resolving
with no error on an already-deleted document), and running it twice
leaves exactly the state of running it once. -/
theorem clearData_idempotent_and_clears (gid : Nat) (st : Store) :
    clearData gid (clearData gid st) = clearData gid st ∧
    roomOf (clearData gid st) gid = none ∧
    (clearData gid st).leaderboard.filter (fun e => e.guildId = gid) = [] ∧
    flagOf (clearData gid st).rolling gid
      = (flagOf st.rolling gid).map (fun _ => false) := by
  refine ⟨?_, roomOf_clearData gid st, leaderboard_clearData gid st,
    flagOf_clearData gid st⟩
  simp only [clearData]
  congr 1
  · exact List.filter_eq_self.mpr (fun a ha => (List.mem_filter.mp ha).2)
  · exact saveRolling_idem st.rolling gid false
  · exact List.filter_eq_self.mpr (fun a ha => (List.mem_filter.mp ha).2)

/-- C10: `randomValueInArray` never fails: for any `Math.random()` value
`r ∈ [0, 1)` the computed index is in bounds for a non-empty array (the
result is an element of the array), and for the empty array the result is
`undefined` (`none`) rather than an error. -/
theorem randomValueInArray_safe {α : Type} (array : List α) (r : ℚ)
    (h0 : 0 ≤ r) (h1 : r < 1) :
    (array = [] → randomValueInArray array r = none) ∧
    (array ≠ [] → ∃ x, randomValueInArray array r = some x ∧ x ∈ array) := by
  constructor
  · intro h
    rw [h]
    rfl
  · intro h
    have hn : 0 < array.length := List.length_pos.mpr h
    have hnn : (0 : ℚ) ≤ r * (array.length : ℚ) :=
      mul_nonneg h0 (by positivity)
    have hlt : r * (array.length : ℚ) < ((array.length : Int) : ℚ) := by
      push_cast
      calc r * (array.length : ℚ) < 1 * (array.length : ℚ) :=
            mul_lt_mul_of_pos_right h1 (by exact_mod_cast hn)
        _ = (array.length : ℚ) := one_mul _
    have hidx : (⌊r * (array.length : ℚ)⌋).toNat < array.length := by
      rw [Int.toNat_lt (Int.floor_nonneg.mpr hnn)]
      exact Int.floor_lt.mpr hlt
    exact ⟨array.get ⟨_, hidx⟩, List.get?_eq_get hidx, List.get_mem _ _ _⟩

/-- C10 (witness): on `[10, 20, 30]` with `r = 1/2` the function returns
an element of the array. -/
theorem randomValueInArray_safe_witness :
    ∃ x, randomValueInArray [10, 20, 30] (1/2 : ℚ) = some x ∧ x ∈ [10, 20, 30] :=
  (randomValueInArray_safe [10, 20, 30] (1/2 : ℚ) (by norm_num) (by norm_num)).2
    (by simp)

end Ritsu
